import Mathlib

/-!
Shallow embedding of the go-infrastructure webserver's handler-definition
registry and request-dispatch pipeline (package `webserver` and its
`webserver/context` subpackage).

Translation conventions:
* Go maps (`map[string]T`) are modelled as association lists over `String`
  keys; `setAssoc` mirrors Go map assignment (overwrite-or-insert) and
  `lookupAssoc` mirrors Go map indexing.
* The underlying HTTP router (gorilla/mux) is an external collaborator; the
  registration-time contract used by the code — `HandleFunc(path, f)` stores
  the chain under `path` for later resolution — is modelled as an assoc-list
  keyed by path inside the per-method router table `Server.methodRouters`.
* `http.ResponseWriter` is modelled as a recorder of the calls the code makes
  on it (`setHeader`, `writeHeader`, `write`), so that ordering properties of
  response construction are observable.
* A Go `panic` at registration time is modelled as `Except.error` carrying the
  panic message; a normal return is `Except.ok`.
* The template renderer `render.HTML.Render` is an external collaborator; its
  outcome for a given request is passed in as a `RenderResult` value.
-/

namespace Webserver

/-- Events recorded against the `http.ResponseWriter` of a request, in the
order the webserver code issues them: `Header().Set`, `WriteHeader`, and
`Write`. -/
inductive WElem where
  | setHeader (k v : String)
  | writeHeader (status : Nat)
  | write (content : String)
deriving DecidableEq, Repr

/-- Models `context.Context` (package `webserver/context`): the per-request
mutable state threaded through a handler chain.  `BreakHandlerChain` is the
short-circuit flag consulted by `Server.Handle`'s dispatch loop; `Status`
models `Output.Status` (default 200 from `NewOutput`); `events` records the
calls made on the response writer; `store` models the request-scoped data a
handler may mutate to communicate with later handlers. -/
structure Context where
  BreakHandlerChain : Bool
  Status : Nat
  events : List WElem
  store : List Nat
deriving DecidableEq, Repr

/-- Models `context.New`: a fresh per-request context, with `Output.Status`
defaulted to 200 by `NewOutput`. -/
def ctxNew : Context := { BreakHandlerChain := false, Status := 200, events := [], store := [] }

/-- Models `HandlerFunc func(*context.Context)`: a handler mutates the
request context. -/
abbrev HandlerFunc := Context → Context

/-- Models `Output.Header` (context/output.go): writes a response header via
`ResponseWriter.Header().Set(key, value)`. -/
def Context.Header (c : Context) (k v : String) : Context :=
  { c with events := c.events ++ [.setHeader k v] }

/-- Models `Output.Body` (context/output.go): calls
`ResponseWriter.WriteHeader(output.Status)`, then sets the `Content-Length`
header from the byte length of the content, then writes the content. -/
def Context.Body (c : Context) (content : String) : Context :=
  let c1 : Context := { c with events := c.events ++ [.writeHeader c.Status] }
  let c2 := c1.Header "Content-Length" (toString content.length)
  { c2 with events := c2.events ++ [.write content] }

/-- Models `Context.HTML` (context/dictionary.go): sets
`Content-Type: text/html` and writes the body. -/
def Context.HTML (c : Context) (output : String) : Context :=
  (c.Header "Content-Type" "text/html").Body output

/-- Outcome of the external template renderer `render.HTML.Render` for one
request. -/
inductive RenderResult where
  | success (content : String)
  | failure
deriving DecidableEq, Repr

/-- Models `Context.HTMLTemplate` (context/dictionary.go): on renderer error,
returns the error before any output; on success, sets
`Content-Type: text/html` and writes the rendered content. -/
def Context.HTMLTemplate (c : Context) (r : RenderResult) : Except Unit Context :=
  match r with
  | .failure => .error ()
  | .success content => .ok ((c.Header "Content-Type" "text/html").Body content)

/-- Models `HandlerDef` (webserver/handlerdef.go): declarative metadata bound
to a handler, with pre/post handler lists.  The untyped documentation payload
fields (`Params`, `Response`, their examples) carry no behavior and are
omitted; `RequestHeaders`/`ResponseHeaders` maps are assoc lists. -/
inductive HandlerDef where
  | mk (Alias : String) (Method : String) (Path : String)
       (Documentation : String) (DurationExpectation : String)
       (ResponseHeaders : List (String × String))
       (RequestHeaders : List (String × String))
       (Handler : HandlerFunc)
       (PreHandlers : List HandlerDef)
       (PostHandlers : List HandlerDef)

/-- Field accessor for `HandlerDef.Method`. -/
def HandlerDef.Method : HandlerDef → String
  | .mk _ m _ _ _ _ _ _ _ _ => m

/-- Field accessor for `HandlerDef.Path`. -/
def HandlerDef.Path : HandlerDef → String
  | .mk _ _ p _ _ _ _ _ _ _ => p

/-- Field accessor for `HandlerDef.RequestHeaders`. -/
def HandlerDef.RequestHeaders : HandlerDef → List (String × String)
  | .mk _ _ _ _ _ _ rh _ _ _ => rh

/-- Field accessor for `HandlerDef.Handler`. -/
def HandlerDef.Handler : HandlerDef → HandlerFunc
  | .mk _ _ _ _ _ _ _ h _ _ => h

/-- Field accessor for `HandlerDef.PreHandlers`. -/
def HandlerDef.PreHandlers : HandlerDef → List HandlerDef
  | .mk _ _ _ _ _ _ _ _ pre _ => pre

/-- Field accessor for `HandlerDef.PostHandlers`. -/
def HandlerDef.PostHandlers : HandlerDef → List HandlerDef
  | .mk _ _ _ _ _ _ _ _ _ post => post

/-- Go map lookup (`m[k]` together with the `ok` flag), for string-keyed
maps modelled as assoc lists. -/
def lookupAssoc {β : Type} : List (String × β) → String → Option β
  | [], _ => none
  | (k, v) :: t, key => if k = key then some v else lookupAssoc t key

/-- Go map assignment `m[k] = v`: overwrite the existing entry or insert a
new one. -/
def setAssoc {β : Type} : List (String × β) → String → β → List (String × β)
  | [], key, val => [(key, val)]
  | (k, v) :: t, key, val =>
      if k = key then (key, val) :: t else (k, v) :: setAssoc t key val

/-- Models the route entry stored by `Server.Handle` for one `(method, path)`:
the main chain and the post chain handed to the dispatch closure. -/
structure Route where
  handlers : List HandlerFunc
  postHandlers : List HandlerFunc

/-- Models the parts of `Server` (webserver/handlerdef.go) that registration
and dispatch read and write: the per-method router table `methodRouters`
(each router maps a path to its registered chain) and the auto-documentation
lookup `Server.HandlerDef`, keyed by `method + ":" + path`. -/
structure Server where
  methodRouters : List (String × List (String × Route))
  handlerDefs : List (String × HandlerDef)

/-- Models `New`: a server whose router table holds one empty `GET` router
and whose handler-definition lookup is empty. -/
def emptyServer : Server := { methodRouters := [("GET", [])], handlerDefs := [] }

/-- Models `Server.Handle` (registration half): fetch or create the router for
`method`, register the chain under `path` with it, and store the router back
in `methodRouters`. -/
def Server.Handle (s : Server) (method path : String)
    (handlers postHandlers : List HandlerFunc) : Server :=
  let router := (lookupAssoc s.methodRouters method).getD []
  let router' := setAssoc router path (Route.mk handlers postHandlers)
  { s with methodRouters := setAssoc s.methodRouters method router' }

/-- Models `Server.Handle`'s registered dispatch closure, first loop: run each
handler in order, checking `event.BreakHandlerChain` before each one and
stopping the loop once it is set. -/
def runHandlers : List HandlerFunc → Context → Context
  | [], c => c
  | h :: t, c => if c.BreakHandlerChain then c else runHandlers t (h c)

/-- Models `Server.Handle`'s registered dispatch closure, second loop: run
every post handler unconditionally. -/
def runPostHandlers : List HandlerFunc → Context → Context
  | [], c => c
  | h :: t, c => runPostHandlers t (h c)

/-- Models the whole dispatch closure registered by `Server.Handle`: the main
chain with the short-circuit check, then the post chain to completion. -/
def Route.dispatch (r : Route) (c : Context) : Context :=
  runPostHandlers r.postHandlers (runHandlers r.handlers c)

/-- The methods accepted by `RegisterHandlerDef`'s switch: the six `case`
labels `HEAD`, `GET`, `PUT`, `DELETE`, `OPTIONS`, `POST` all fall through to
the same `s.Handle` call. -/
def recognizedMethods : List String := ["HEAD", "GET", "PUT", "DELETE", "OPTIONS", "POST"]

/-- Models the compiled chain built at the top of `RegisterHandlerDef`: every
`PreHandlers` entry's `Handler` in list order, then the def's own `Handler`,
then every `PostHandlers` entry's `Handler` in list order. -/
def compiledChain (h : HandlerDef) : List HandlerFunc :=
  h.PreHandlers.map HandlerDef.Handler ++ [h.Handler] ++ h.PostHandlers.map HandlerDef.Handler

/-- Models the final map write of `RegisterHandlerDef`:
`s.HandlerDef[h.Method+":"+h.Path] = h`. -/
def Server.recordDef (s : Server) (h : HandlerDef) : Server :=
  { s with handlerDefs := setAssoc s.handlerDefs (h.Method ++ ":" ++ h.Path) h }

/-- Models `Server.RegisterHandlerDef` (webserver/handlerdef.go): build the
compiled chain; for a recognized method register it via `Handle`; for an
empty method register nothing (middleware only); otherwise panic.  In the
non-panicking branches the def is recorded in the documentation lookup. -/
def Server.RegisterHandlerDef (s : Server) (h : HandlerDef) : Except String Server :=
  let chain := compiledChain h
  if h.Method ∈ recognizedMethods then
    .ok ((s.Handle h.Method h.Path chain []).recordDef h)
  else if h.Method = "" then
    .ok (s.recordDef h)
  else
    .error ("Unable to register handler due to unknown method: " ++ h.Method)

/-- The error values declared at package level in webserver/handlerdef.go
(`ErrWebserverDuplicateMethod`, `ErrWebserverRequestHeaderCountWrong`,
`ErrWebserverRequestHeaderMismatch`). -/
inductive WebserverErr where
  | duplicateMethod
  | requestHeaderCountWrong
  | requestHeaderMismatch
deriving DecidableEq, Repr

/-- Models `Server.RegisterHandlerDefs`: register each def in input order and
return `nil` (`none`); a panic in a def propagates. -/
def Server.RegisterHandlerDefs : Server → List HandlerDef → Except String (Server × Option WebserverErr)
  | s, [] => .ok (s, none)
  | s, h :: t =>
      match s.RegisterHandlerDef h with
      | .ok s' => s'.RegisterHandlerDefs t
      | .error e => .error e

/-- Models `optionsMetadata` (webserver/handlerdef.go): the transient
per-path aggregation built by `RegisterHandlerDefsAndOptions`. -/
structure optionsMetadata where
  Get : Bool
  Put : Bool
  Post : Bool
  Delete : Bool
  Head : Bool
  RequestHeaders : List (String × String)

/-- The Go zero value of `optionsMetadata`: all flags false, nil map. -/
def optionsMetadata.zero : optionsMetadata :=
  { Get := false, Put := false, Post := false, Delete := false, Head := false,
    RequestHeaders := [] }

/-- Models `strings.ToUpper` for the ASCII method strings involved. -/
def toUpperStr (s : String) : String := ⟨s.data.map Char.toUpper⟩

/-- The inner loop of `RegisterHandlerDefsAndOptions` that compares the
current def's request headers against the first-seen headers for its path:
`true` when some key of `dflt` is present in `hdrs` with a different value. -/
def headerValueConflict (dflt hdrs : List (String × String)) : Bool :=
  dflt.any (fun kv =>
    match lookupAssoc hdrs kv.1 with
    | some v => v != kv.2
    | none => false)

/-- The verb-flag overwrite performed on the open `optionsMetadata` for each
def: every flag is (re)assigned from the current def's method alone, e.g.
`o.Get = strings.ToUpper(hd.Method) == "GET"`. -/
def optionsStep (o : optionsMetadata) (method : String) : optionsMetadata :=
  { o with
    Get := toUpperStr method = "GET"
    Post := toUpperStr method = "POST"
    Put := toUpperStr method = "PUT"
    Delete := toUpperStr method = "DELETE"
    Head := toUpperStr method = "HEAD" }

/-- The conditional `o.RequestHeaders = hd.RequestHeaders` assignment guarded
by `len(hd.RequestHeaders) > 0`. -/
def optionsSetHeaders (o : optionsMetadata) (hdrs : List (String × String)) : optionsMetadata :=
  if 0 < hdrs.length then { o with RequestHeaders := hdrs } else o

/-- Models the first loop of `RegisterHandlerDefsAndOptions`: walk the defs,
creating the per-path `optionsMetadata` and `defaultHeaders` entries on first
sight of a path, overwriting the verb flags from the current def's method,
and validating the request headers against the first def seen for the path.
Returns the finished options map or the first validation error. -/
def collectOptions :
    List (String × optionsMetadata) → List (String × List (String × String)) →
    List HandlerDef → Except WebserverErr (List (String × optionsMetadata))
  | om, _, [] => .ok om
  | om, dh, hd :: t =>
      let seen := (lookupAssoc om hd.Path).isSome
      let om1 := if seen then om else setAssoc om hd.Path optionsMetadata.zero
      let dh1 := if seen then dh else setAssoc dh hd.Path hd.RequestHeaders
      let o1 := optionsStep ((lookupAssoc om1 hd.Path).getD optionsMetadata.zero) hd.Method
      let dflt := (lookupAssoc dh1 hd.Path).getD []
      if hd.RequestHeaders.length ≠ dflt.length then
        .error .requestHeaderCountWrong
      else if 0 < hd.RequestHeaders.length ∧ headerValueConflict dflt hd.RequestHeaders then
        .error .requestHeaderMismatch
      else
        collectOptions (setAssoc om1 hd.Path (optionsSetHeaders o1 hd.RequestHeaders)) dh1 t

/-- Models `createOption` (webserver/handlerdef.go): the synthesized OPTIONS
def for a path.  The verb list is assembled in the fixed textual order of the
function's `if` statements; the handler writes the
`Access-Control-Allow-Methods` header, echoes the collected request headers,
and writes an empty body. -/
def createOption (path : String) (meta : optionsMetadata) : HandlerDef :=
  let methods : List String :=
    (if meta.Get then ["GET"] else []) ++
    (if meta.Put then ["PUT"] else []) ++
    (if meta.Post then ["POST"] else []) ++
    (if meta.Delete then ["DELETE"] else []) ++
    (if meta.Head then ["HEAD"] else [])
  HandlerDef.mk "" "OPTIONS" path "" "" [] []
    (fun c =>
      let c1 := c.Header "Access-Control-Allow-Methods" (String.intercalate "," methods)
      let c2 := meta.RequestHeaders.foldl (fun c kv => c.Header kv.1 kv.2) c1
      c2.Body "")
    [] []

/-- Models `Server.RegisterHandlerDefsAndOptions`: run the collection pass;
a validation error is returned to the caller with the server untouched;
otherwise append one synthesized OPTIONS def per unique path and register the
whole extended slice via `RegisterHandlerDef`, returning `nil`. -/
def Server.RegisterHandlerDefsAndOptions (s : Server) (h : List HandlerDef) :
    Except String (Server × Option WebserverErr) :=
  match collectOptions [] [] h with
  | .error e => .ok (s, some e)
  | .ok om =>
      match Server.RegisterHandlerDefs s (h ++ om.map (fun p => createOption p.1 p.2)) with
      | .ok (s', _) => .ok (s', none)
      | .error e => .error e

/-- Models the router selection in `Server.ServeHTTP`:
`router, ok := s.methodRouters[req.Method]; if !ok { router = s.methodRouters[GET] }`. -/
def Server.routerFor (s : Server) (method : String) : List (String × Route) :=
  match lookupAssoc s.methodRouters method with
  | some r => r
  | none => (lookupAssoc s.methodRouters "GET").getD []

/-- Route resolution of a request: the selected per-method router maps the
path to its registered chain, or declares no match. -/
def Server.resolve (s : Server) (method path : String) : Option Route :=
  lookupAssoc (s.routerFor method) path

/-- Models `defaultResponse404` (webserver/handlerdef.go), the static body
served when the configured 404 template cannot be used. -/
def defaultResponse404 : String :=
  "<html><head><title>404 Not Found</title><style>body\x7bbackground-color:black;color:white;margin:20%;\x7d</style></head><body><center><h1>404 Not Found</h1></center></body></html>"

/-- Models `Server.onMissingHandler` (webserver/handlerdef.go): build a fresh
context, set status 404; while the package flag `seekOnMissingHandler` is
set, try the configured template, clearing the flag on render failure; when
the flag is (now) clear, write the static default 404 body.  The first
component of the result is the new value of `seekOnMissingHandler`. -/
def onMissingHandler (seek : Bool) (r : RenderResult) : Bool × Context :=
  let c : Context := { ctxNew with Status := 404 }
  let step : Bool × Context :=
    if seek then
      match c.HTMLTemplate r with
      | .ok c' => (true, c')
      | .error _ => (false, c)
    else (seek, c)
  if step.1 then step else (step.1, step.2.Body defaultResponse404)

/-- A process-lifetime sequence of requests to unregistered paths: each miss
is handled by `onMissingHandler` with the renderer outcome it encounters,
threading the package-level `seekOnMissingHandler` flag. -/
def runMisses : Bool → List RenderResult → Bool × List Context
  | seek, [] => (seek, [])
  | seek, r :: t =>
      let step := onMissingHandler seek r
      let rest := runMisses step.1 t
      (rest.1, step.2 :: rest.2)

/-- Observation: the concatenated content of all `write` calls made on the
response writer — the response body the client receives. -/
def bodyOf (c : Context) : String :=
  c.events.foldl (fun acc e => match e with | .write s => acc ++ s | _ => acc) ""

/-- Observation: the status passed to the first `WriteHeader` call. -/
def statusWritten (c : Context) : Option Nat :=
  c.events.findSome? (fun e => match e with | .writeHeader n => some n | _ => none)

/-- Observation: the response header for `k` — the last `Header().Set` call
for that key wins, as in `http.Header.Set`. -/
def headerOf (c : Context) (k : String) : Option String :=
  c.events.foldl
    (fun acc e => match e with
      | .setHeader k' v => if k' = k then some v else acc
      | _ => acc) none

/-- Observation: no header is set on the response writer after the first
body write — all headers were set before the body was written. -/
def noHeaderAfterWrite : List WElem → Bool
  | [] => true
  | .write _ :: t => t.all (fun e => match e with | .setHeader _ _ => false | _ => true)
  | _ :: t => noHeaderAfterWrite t

/-- An observer handler: records its label in the request context's store and
changes nothing else.  Used to witness execution order through a chain. -/
def tagHandler (i : Nat) : HandlerFunc :=
  fun c => { c with store := c.store ++ [i] }

/-- A handler that sets the `BreakHandlerChain` short-circuit flag. -/
def breakHandler : HandlerFunc :=
  fun c => { c with BreakHandlerChain := true }

/-- A middleware-only `HandlerDef` (empty method) whose handler is the
observer `tagHandler i`. -/
def observerDef (i : Nat) : HandlerDef :=
  HandlerDef.mk "" "" "" "" "" [] [] (tagHandler i) [] []

/-- A routable `HandlerDef` whose target handler and pre/post middleware are
observer handlers labelled by the given lists. -/
def taggedDef (method path : String) (pre : List Nat) (t : Nat) (post : List Nat) : HandlerDef :=
  HandlerDef.mk "" method path "" "" [] [] (tagHandler t)
    (pre.map observerDef) (post.map observerDef)

/-- The request headers of the first def in the list registered for a path:
the `defaultHeaders` entry `RegisterHandlerDefsAndOptions` validates against. -/
def firstHeaders : List HandlerDef → String → Option (List (String × String))
  | [], _ => none
  | hd :: t, p => if hd.Path = p then some hd.RequestHeaders else firstHeaders t p

/-- The condition under which `RegisterHandlerDefsAndOptions` rejects a def
against the reference headers `dflt`: differing key count, or some key of
`dflt` present with a differing value. -/
def headerConflict (dflt hdrs : List (String × String)) : Bool :=
  hdrs.length != dflt.length || headerValueConflict dflt hdrs

/-- The default-headers source consulted for a def's path during the
validation pass: the accumulated `defaultHeaders` entry if the path was seen
before this pass's remainder, otherwise the first def for the path in the
remaining input. -/
def dhOr (dh : List (String × List (String × String))) (hs : List HandlerDef)
    (p : String) : Option (List (String × String)) :=
  match lookupAssoc dh p with
  | some x => some x
  | none => firstHeaders hs p

section AssocLemmas

theorem lookup_setAssoc_self {β : Type} (l : List (String × β)) (k : String) (v : β) :
    lookupAssoc (setAssoc l k v) k = some v := by
  induction l with
  | nil => simp [setAssoc, lookupAssoc]
  | cons p t ih =>
      by_cases h : p.1 = k
      · simp [setAssoc, h, lookupAssoc]
      · simp [setAssoc, h, lookupAssoc, ih]

theorem lookup_setAssoc_ne {β : Type} (l : List (String × β)) (k k' : String) (v : β)
    (h : k' ≠ k) : lookupAssoc (setAssoc l k v) k' = lookupAssoc l k' := by
  have hkk : ¬k = k' := fun hh => h hh.symm
  induction l with
  | nil => simp [setAssoc, lookupAssoc, hkk]
  | cons p t ih =>
      obtain ⟨a, b⟩ := p
      by_cases hp : a = k
      · subst hp
        simp [setAssoc, lookupAssoc, hkk]
      · simp [setAssoc, hp, lookupAssoc, ih]

theorem setAssoc_setAssoc_self {β : Type} (l : List (String × β)) (k : String) (a b : β) :
    setAssoc (setAssoc l k a) k b = setAssoc l k b := by
  induction l with
  | nil => simp [setAssoc]
  | cons p t ih =>
      by_cases h : p.1 = k
      · simp [setAssoc, h]
      · simp [setAssoc, h, ih]

end AssocLemmas

section ChainLemmas

theorem runHandlers_break (l : List HandlerFunc) (c : Context)
    (h : c.BreakHandlerChain = true) : runHandlers l c = c := by
  cases l with
  | nil => rfl
  | cons f t => simp [runHandlers, h]

theorem runHandlers_append (a b : List HandlerFunc) (c : Context) :
    runHandlers (a ++ b) c = runHandlers b (runHandlers a c) := by
  induction a generalizing c with
  | nil => rfl
  | cons f t ih =>
      by_cases h : c.BreakHandlerChain
      · simp [runHandlers, h, runHandlers_break b c h]
      · simp [runHandlers, h, ih]

theorem tagHandler_break (i : Nat) (c : Context) :
    (tagHandler i c).BreakHandlerChain = c.BreakHandlerChain := rfl

theorem runHandlers_tagged (ls : List Nat) (c : Context)
    (h : c.BreakHandlerChain = false) :
    runHandlers (ls.map tagHandler) c = { c with store := c.store ++ ls } := by
  induction ls generalizing c with
  | nil => simp [runHandlers]
  | cons i t ih =>
      have hb : (tagHandler i c).BreakHandlerChain = false := by
        simpa [tagHandler] using h
      have step : runHandlers (tagHandler i :: t.map tagHandler) c
          = runHandlers (t.map tagHandler) (tagHandler i c) := if_neg (by simp [h])
      rw [List.map_cons, step, ih (tagHandler i c) hb]
      simp [tagHandler]

theorem runPostHandlers_tagged (ls : List Nat) (c : Context) :
    runPostHandlers (ls.map tagHandler) c = { c with store := c.store ++ ls } := by
  induction ls generalizing c with
  | nil => simp [runPostHandlers]
  | cons i t ih => simp [runPostHandlers, ih, tagHandler]

end ChainLemmas

section RegistrationLemmas

theorem recordDef_methodRouters (s : Server) (h : HandlerDef) :
    (s.recordDef h).methodRouters = s.methodRouters := rfl

theorem resolve_after_register (s : Server) (m p : String)
    (ch post : List HandlerFunc) (h : HandlerDef) :
    ((s.Handle m p ch post).recordDef h).resolve m p = some (Route.mk ch post) := by
  simp [Server.resolve, Server.routerFor, Server.recordDef, Server.Handle,
    lookup_setAssoc_self]

theorem registerHandlerDef_recognized (s : Server) (h : HandlerDef)
    (hm : h.Method ∈ recognizedMethods) :
    s.RegisterHandlerDef h =
      .ok ((s.Handle h.Method h.Path (compiledChain h) []).recordDef h) := by
  simp [Server.RegisterHandlerDef, hm]

theorem registerDefs_error_free (hs : List HandlerDef) :
    ∀ (s s₁ : Server) (e₁ : Option WebserverErr),
      Server.RegisterHandlerDefs s hs = .ok (s₁, e₁) → e₁ = none := by
  induction hs with
  | nil =>
      intro s s₁ e₁ h
      simp [Server.RegisterHandlerDefs] at h
      exact h.2.symm
  | cons hd t ih =>
      intro s s₁ e₁ h
      simp only [Server.RegisterHandlerDefs] at h
      cases hreg : s.RegisterHandlerDef hd with
      | ok s' =>
          rw [hreg] at h
          exact ih s' s₁ e₁ h
      | error e =>
          rw [hreg] at h
          exact absurd h (by simp)

theorem handler_observerDef : HandlerDef.Handler ∘ observerDef = tagHandler := rfl

theorem regAndOptions_error_eq (s : Server) (h : List HandlerDef) (e : WebserverErr)
    (hc : collectOptions [] [] h = .error e) :
    s.RegisterHandlerDefsAndOptions h = .ok (s, some e) := by
  unfold Server.RegisterHandlerDefsAndOptions
  rw [hc]

theorem regAndOptions_ok_eq (s : Server) (h : List HandlerDef)
    (om : List (String × optionsMetadata)) (hc : collectOptions [] [] h = .ok om) :
    s.RegisterHandlerDefsAndOptions h =
      match Server.RegisterHandlerDefs s (h ++ om.map (fun p => createOption p.1 p.2)) with
      | .ok (s', _) => .ok (s', none)
      | .error e => .error e := by
  unfold Server.RegisterHandlerDefsAndOptions
  rw [hc]

theorem collectOptions_error_kind (hs : List HandlerDef) :
    ∀ (om : List (String × optionsMetadata))
      (dh : List (String × List (String × String))) (e : WebserverErr),
      collectOptions om dh hs = .error e →
      e = WebserverErr.requestHeaderCountWrong ∨ e = WebserverErr.requestHeaderMismatch := by
  induction hs with
  | nil =>
      intro om dh e h
      exact absurd h (by simp [collectOptions])
  | cons hd t ih =>
      intro om dh e h
      by_cases hseen : (lookupAssoc om hd.Path).isSome
      · simp only [collectOptions] at h
        rw [if_pos hseen] at h
        rw [if_pos hseen] at h
        split at h
        · exact Or.inl (Except.error.inj h).symm
        · split at h
          · exact Or.inr (Except.error.inj h).symm
          · exact ih _ _ e h
      · simp only [collectOptions] at h
        rw [if_neg hseen] at h
        rw [if_neg hseen] at h
        split at h
        · exact Or.inl (Except.error.inj h).symm
        · split at h
          · exact Or.inr (Except.error.inj h).symm
          · exact ih _ _ e h

theorem headerConflict_false (dflt hdrs : List (String × String))
    (hcount : ¬hdrs.length ≠ dflt.length)
    (hval : ¬(0 < hdrs.length ∧ headerValueConflict dflt hdrs = true)) :
    headerConflict dflt hdrs = false := by
  have hlen : hdrs.length = dflt.length := not_ne_iff.mp hcount
  have hvc : headerValueConflict dflt hdrs = false := by
    rcases Nat.eq_zero_or_pos hdrs.length with h0 | hpos
    · have hd0 : dflt = [] := List.length_eq_zero.mp (by omega)
      subst hd0
      rfl
    · cases hcv : headerValueConflict dflt hdrs with
      | false => rfl
      | true => exact absurd ⟨hpos, hcv⟩ hval
  simp [headerConflict, hlen, hvc]

theorem isSome_setAssoc {β : Type} (l : List (String × β)) (k : String) (v : β) (q : String) :
    (lookupAssoc (setAssoc l k v) q).isSome =
      if q = k then true else (lookupAssoc l q).isSome := by
  by_cases hq : q = k
  · subst hq
    rw [lookup_setAssoc_self]
    simp
  · rw [lookup_setAssoc_ne _ _ _ _ hq]
    simp [hq]

theorem collectOptions_ok_no_conflict (hs : List HandlerDef) :
    ∀ (om : List (String × optionsMetadata))
      (dh : List (String × List (String × String)))
      (r : List (String × optionsMetadata)),
      collectOptions om dh hs = .ok r →
      (∀ p, (lookupAssoc om p).isSome = (lookupAssoc dh p).isSome) →
      ∀ hd ∈ hs, ∀ dflt, dhOr dh hs hd.Path = some dflt →
        headerConflict dflt hd.RequestHeaders = false := by
  induction hs with
  | nil =>
      intro om dh r _ _ hd hmem
      exact absurd hmem (List.not_mem_nil hd)
  | cons hd0 t ih =>
      intro om dh r h hsync hd hmem dflt hdflt
      by_cases hseen : (lookupAssoc om hd0.Path).isSome
      · -- the path was seen before: the accumulators are reused unchanged
        obtain ⟨d, hd0d⟩ : ∃ d, lookupAssoc dh hd0.Path = some d :=
          Option.isSome_iff_exists.mp (by rw [← hsync hd0.Path]; exact hseen)
        simp only [collectOptions] at h
        rw [if_pos hseen, if_pos hseen] at h
        split at h
        · exact absurd h (by simp)
        · split at h
          · exact absurd h (by simp)
          · rename_i hcount hval
            rw [hd0d] at hcount hval
            rcases List.mem_cons.mp hmem with rfl | hmem'
            · -- the current def: its default headers come from the map
              have hdd : dflt = d := by
                simp only [dhOr, hd0d] at hdflt
                exact (Option.some.inj hdflt).symm
              subst hdd
              exact headerConflict_false _ _ hcount hval
            · -- a later def: apply the induction hypothesis
              refine ih _ _ r h ?_ hd hmem' dflt ?_
              · intro q
                rw [isSome_setAssoc]
                by_cases hq : q = hd0.Path
                · rw [if_pos hq, hq, hd0d]
                  rfl
                · rw [if_neg hq]
                  exact hsync q
              · rw [← hdflt]
                simp only [dhOr]
                cases hq : lookupAssoc dh hd.Path with
                | some v => rfl
                | none =>
                    have hne : ¬hd0.Path = hd.Path := by
                      intro he
                      rw [← he, hd0d] at hq
                      exact Option.noConfusion hq
                    rw [firstHeaders, if_neg hne]
      · -- first sight of the path: both accumulators gain an entry for it
        have hdhnone : lookupAssoc dh hd0.Path = none :=
          Option.not_isSome_iff_eq_none.mp (by rw [← hsync hd0.Path]; exact hseen)
        simp only [collectOptions] at h
        rw [if_neg hseen, if_neg hseen] at h
        split at h
        · exact absurd h (by simp)
        · split at h
          · exact absurd h (by simp)
          · rename_i hcount hval
            rw [lookup_setAssoc_self] at hcount hval
            rcases List.mem_cons.mp hmem with rfl | hmem'
            · have hdd : dflt = hd.RequestHeaders := by
                simp only [dhOr, hdhnone, firstHeaders, if_pos rfl] at hdflt
                exact (Option.some.inj hdflt).symm
              subst hdd
              exact headerConflict_false _ _ hcount hval
            · refine ih _ _ r h ?_ hd hmem' dflt ?_
              · intro q
                rw [isSome_setAssoc, isSome_setAssoc, isSome_setAssoc]
                by_cases hq : q = hd0.Path
                · simp [hq]
                · simp [hq, hsync q]
              · rw [← hdflt]
                simp only [dhOr]
                by_cases hq : hd.Path = hd0.Path
                · rw [hq, lookup_setAssoc_self, hdhnone, firstHeaders, if_pos rfl]
                · rw [lookup_setAssoc_ne _ _ _ _ hq]
                  cases hqq : lookupAssoc dh hd.Path with
                  | some v => rfl
                  | none =>
                      rw [firstHeaders, if_neg (fun he => hq he.symm)]

end RegistrationLemmas

section MissLemmas

theorem onMissingHandler_false_indep (r : RenderResult) :
    onMissingHandler false r =
      (false, Context.Body { ctxNew with Status := 404 } defaultResponse404) := rfl

theorem onMissingHandler_failure (seek : Bool) :
    (onMissingHandler seek RenderResult.failure).1 = false ∧
      bodyOf (onMissingHandler seek RenderResult.failure).2 = defaultResponse404 ∧
      statusWritten (onMissingHandler seek RenderResult.failure).2 = some 404 := by
  cases seek <;> exact ⟨rfl, rfl, rfl⟩

theorem runMisses_append (a b : List RenderResult) (s : Bool) :
    runMisses s (a ++ b) =
      ((runMisses (runMisses s a).1 b).1,
        (runMisses s a).2 ++ (runMisses (runMisses s a).1 b).2) := by
  induction a generalizing s with
  | nil => simp [runMisses]
  | cons r t ih => simp [runMisses, ih]

theorem runMisses_length (rs : List RenderResult) :
    ∀ b, (runMisses b rs).2.length = rs.length := by
  induction rs with
  | nil => intro b; rfl
  | cons r t ih => intro b; simp [runMisses, ih]

theorem runMisses_false (rs : List RenderResult) :
    (runMisses false rs).1 = false ∧
      ∀ c ∈ (runMisses false rs).2,
        bodyOf c = defaultResponse404 ∧ statusWritten c = some 404 := by
  induction rs with
  | nil => exact ⟨rfl, by intro c hc; exact absurd hc (List.not_mem_nil c)⟩
  | cons r t ih =>
      constructor
      · show (runMisses (onMissingHandler false r).1 t).1 = false
        rw [onMissingHandler_false_indep]
        exact ih.1
      · intro c hc
        rw [show runMisses false (r :: t) =
            ((runMisses false t).1, (onMissingHandler false r).2 :: (runMisses false t).2) from
          by rw [runMisses, onMissingHandler_false_indep]] at hc
        rcases List.mem_cons.mp hc with rfl | hc'
        · rw [onMissingHandler_false_indep]
          exact ⟨rfl, rfl⟩
        · exact ih.2 c hc'

end MissLemmas

/-- The demonstration endpoint of the repository: `GET /api/sample` whose
handler responds with `ctx.HTML("Listing stuff")`. -/
def sampleHandlerDef : HandlerDef :=
  HandlerDef.mk "ExampleGet" "GET" "/api/sample" "/some/path/to/documentation.html" "1ms" [] []
    (fun ctx => ctx.HTML "Listing stuff") [] []

/-- A `GET /x` def with no request headers. -/
def getXDef : HandlerDef :=
  HandlerDef.mk "" "GET" "/x" "" "" [] [] (fun c => c.Body "") [] []

/-- A second, distinct registration for `GET /x`. -/
def getX2Def : HandlerDef :=
  HandlerDef.mk "v2" "GET" "/x" "" "" [] [] (fun c => c.Body "two") [] []

/-- A `POST /x` def with no request headers. -/
def postXDef : HandlerDef :=
  HandlerDef.mk "" "POST" "/x" "" "" [] [] (fun c => c.Body "") [] []

/-- A def using the `PATCH` method. -/
def patchDef : HandlerDef :=
  HandlerDef.mk "" "PATCH" "/patch" "" "" [] [] (fun c => c) [] []

/-- First def on `/p`: request headers `A=1, B=2`. -/
def defA : HandlerDef :=
  HandlerDef.mk "" "GET" "/p" "" "" [] [("A", "1"), ("B", "2")] (fun c => c) [] []

/-- Second def on `/p`: request headers `A=1, C=5` — key-compatible with
`defA` (the shared key `A` agrees). -/
def defB : HandlerDef :=
  HandlerDef.mk "" "POST" "/p" "" "" [] [("A", "1"), ("C", "5")] (fun c => c) [] []

/-- Third def on `/p`: request headers `B=2, C=6` — key-compatible with
`defA`, but in conflict with `defB` on key `C`. -/
def defC : HandlerDef :=
  HandlerDef.mk "" "PUT" "/p" "" "" [] [("B", "2"), ("C", "6")] (fun c => c) [] []

/-- A def on `/p` whose value for key `A` differs from `defA`'s. -/
def defB2 : HandlerDef :=
  HandlerDef.mk "" "POST" "/p" "" "" [] [("A", "9"), ("C", "5")] (fun c => c) [] []

/-- The server after registering the demonstration endpoint. -/
def serverAfterSample : Server :=
  (emptyServer.RegisterHandlerDef sampleHandlerDef).toOption.getD emptyServer

/-- C1: for every HandlerDef with a non-empty recognized method registered
via `RegisterHandlerDef`, a request dispatched to `(method, path)` executes
the compiled chain in exactly pre-handlers (list order), then the target
handler, then post-handlers (list order), as observed through the request
context by observer handlers. -/
theorem C1_chain_order (s : Server) (m path : String) (pre post : List Nat) (t : Nat)
    (c : Context) (hm : m ∈ recognizedMethods) (hc : c.BreakHandlerChain = false) :
    ∃ s', s.RegisterHandlerDef (taggedDef m path pre t post) = .ok s' ∧
      ∃ r, s'.resolve m path = some r ∧
        (r.dispatch c).store = c.store ++ (pre ++ [t] ++ post) := by
  have hreg := registerHandlerDef_recognized s (taggedDef m path pre t post) hm
  refine ⟨_, hreg, ?_⟩
  refine ⟨_, resolve_after_register s m path
    (compiledChain (taggedDef m path pre t post)) [] (taggedDef m path pre t post), ?_⟩
  have hchain : compiledChain (taggedDef m path pre t post)
      = (pre ++ t :: post).map tagHandler := by
    simp [compiledChain, taggedDef, HandlerDef.PreHandlers, HandlerDef.PostHandlers,
      HandlerDef.Handler, List.map_map, handler_observerDef]
  have hdisp : (Route.mk (compiledChain (taggedDef m path pre t post)) []).dispatch c
      = runHandlers ((pre ++ t :: post).map tagHandler) c := by
    simp [Route.dispatch, runPostHandlers, hchain]
  rw [hdisp, runHandlers_tagged _ _ hc]
  simp

/-- C1 witness: a concrete `GET /x` def with pre-handlers `[1, 2]`, target
`0`, post-handlers `[3]` executes in exactly that order. -/
theorem C1_chain_order_witness :
    ("GET" ∈ recognizedMethods ∧ ctxNew.BreakHandlerChain = false) ∧
    (∃ s', emptyServer.RegisterHandlerDef (taggedDef "GET" "/x" [1, 2] 0 [3]) = .ok s' ∧
      ∃ r, s'.resolve "GET" "/x" = some r ∧
        (r.dispatch ctxNew).store = ctxNew.store ++ ([1, 2] ++ [0] ++ [3])) :=
  ⟨⟨by decide, rfl⟩,
   C1_chain_order emptyServer "GET" "/x" [1, 2] [3] 0 ctxNew (by decide) rfl⟩

/-- C6: once a handler in the main chain sets `BreakHandlerChain`, every
remaining handler of that chain is skipped; the post-handler loop runs to
completion regardless of the flag. -/
theorem C6_short_circuit (pre suf : List HandlerFunc) (postLabels : List Nat) (c : Context)
    (hb : (runHandlers pre c).BreakHandlerChain = true) :
    runHandlers (pre ++ suf) c = runHandlers pre c ∧
    (Route.dispatch (Route.mk (pre ++ suf) (postLabels.map tagHandler)) c).store
      = (runHandlers pre c).store ++ postLabels := by
  have h1 : runHandlers (pre ++ suf) c = runHandlers pre c := by
    rw [runHandlers_append, runHandlers_break suf _ hb]
  refine ⟨h1, ?_⟩
  simp [Route.dispatch, h1, runPostHandlers_tagged]

/-- C6 witness: a chain whose first handler sets the flag skips the observer
after it, while both post observers still run. -/
theorem C6_short_circuit_witness :
    (runHandlers [breakHandler] ctxNew).BreakHandlerChain = true ∧
    (runHandlers ([breakHandler] ++ [tagHandler 7]) ctxNew = runHandlers [breakHandler] ctxNew ∧
      (Route.dispatch (Route.mk ([breakHandler] ++ [tagHandler 7]) ([3, 4].map tagHandler)) ctxNew).store
        = (runHandlers [breakHandler] ctxNew).store ++ [3, 4]) :=
  ⟨rfl, C6_short_circuit [breakHandler] [tagHandler 7] [3, 4] ctxNew rfl⟩

/-- C3 counterexample: the claim includes `PATCH` in the recognized set, but
`RegisterHandlerDef`'s switch has no `PATCH` case, so a `PATCH` def hits the
default branch and panics. -/
theorem C3_method_set_counterexample :
    emptyServer.RegisterHandlerDef patchDef =
      .error ("Unable to register handler due to unknown method: " ++ patchDef.Method) := rfl

/-- C3 (amended): for every HandlerDef whose method is in the recognized set
of the six switch cases (GET, POST, PUT, DELETE, HEAD, OPTIONS — no PATCH),
`RegisterHandlerDef` registers the compiled chain with the route table and
returns normally; it panics if and only if the method is a non-empty string
outside that set. -/
theorem C3_method_set_amended (s : Server) (h : HandlerDef) :
    (h.Method ∈ recognizedMethods →
      ∃ s', s.RegisterHandlerDef h = .ok s' ∧
        s'.resolve h.Method h.Path = some (Route.mk (compiledChain h) [])) ∧
    ((∃ e, s.RegisterHandlerDef h = .error e) ↔
      h.Method ∉ recognizedMethods ∧ h.Method ≠ "") := by
  constructor
  · intro hm
    exact ⟨_, registerHandlerDef_recognized s h hm,
      resolve_after_register s h.Method h.Path (compiledChain h) [] h⟩
  · constructor
    · rintro ⟨e, he⟩
      by_cases hm : h.Method ∈ recognizedMethods
      · rw [registerHandlerDef_recognized s h hm] at he
        exact absurd he (by simp)
      · by_cases h0 : h.Method = ""
        · have hnm : ("" : String) ∉ recognizedMethods := by decide
          simp [Server.RegisterHandlerDef, hm, h0, hnm] at he
        · exact ⟨hm, h0⟩
    · rintro ⟨hm, h0⟩
      exact ⟨"Unable to register handler due to unknown method: " ++ h.Method,
        by simp [Server.RegisterHandlerDef, hm, h0]⟩

/-- C3 witness: the demonstration def's `GET` registers and resolves. -/
theorem C3_method_set_witness :
    ∃ s', emptyServer.RegisterHandlerDef sampleHandlerDef = .ok s' ∧
      s'.resolve sampleHandlerDef.Method sampleHandlerDef.Path
        = some (Route.mk (compiledChain sampleHandlerDef) []) :=
  (C3_method_set_amended emptyServer sampleHandlerDef).1 (by decide)

/-- C5: registering two HandlerDefs with the same `(method, path)` one after
the other leaves exactly the state of registering the second alone — the
route table and the lookup map hold only the second registration, with no
error reported. -/
theorem C5_last_registration_wins (s : Server) (x y : HandlerDef)
    (hm : x.Method = y.Method) (hp : x.Path = y.Path)
    (hy : y.Method ∈ recognizedMethods) :
    ∃ sx, s.RegisterHandlerDef x = .ok sx ∧
      sx.RegisterHandlerDef y = s.RegisterHandlerDef y := by
  have hx : x.Method ∈ recognizedMethods := by rw [hm]; exact hy
  refine ⟨_, registerHandlerDef_recognized s x hx, ?_⟩
  rw [registerHandlerDef_recognized _ y hy, registerHandlerDef_recognized s y hy]
  simp only [Server.Handle, Server.recordDef, hm, hp]
  simp [lookup_setAssoc_self, setAssoc_setAssoc_self]

/-- C5 witness: registering `getXDef` then `getX2Def` equals registering
`getX2Def` alone. -/
theorem C5_last_registration_wins_witness :
    ∃ sx, emptyServer.RegisterHandlerDef getXDef = .ok sx ∧
      sx.RegisterHandlerDef getX2Def = emptyServer.RegisterHandlerDef getX2Def :=
  C5_last_registration_wins emptyServer getXDef getX2Def rfl rfl (by decide)

/-- C9: `RegisterHandlerDefs` never reports an error through its result, and
no registration operation ever returns `ErrWebserverDuplicateMethod`. -/
theorem C9_nil_error (s t : Server) (hs hs' : List HandlerDef)
    (s₁ s₂ : Server) (e₁ e₂ : Option WebserverErr)
    (h1 : Server.RegisterHandlerDefs s hs = .ok (s₁, e₁))
    (h2 : Server.RegisterHandlerDefsAndOptions t hs' = .ok (s₂, e₂)) :
    e₁ = none ∧ e₂ ≠ some WebserverErr.duplicateMethod := by
  refine ⟨registerDefs_error_free hs s s₁ e₁ h1, ?_⟩
  cases hcoll : collectOptions [] [] hs' with
  | error e =>
      rw [regAndOptions_error_eq t hs' e hcoll] at h2
      have he : e₂ = some e := by
        have hpair := Except.ok.inj h2
        exact (congrArg Prod.snd hpair).symm
      rcases collectOptions_error_kind hs' [] [] e hcoll with hk | hk <;>
        simp [he, hk]
  | ok om =>
      rw [regAndOptions_ok_eq t hs' om hcoll] at h2
      split at h2
      · have he : e₂ = none := by
          have hpair := Except.ok.inj h2
          exact (congrArg Prod.snd hpair).symm
        simp [he]
      · exact absurd h2 (by simp)

/-- C9 witness: the empty batch returns `nil` from both registration
operations. -/
theorem C9_nil_error_witness :
    (none : Option WebserverErr) = none ∧
      (none : Option WebserverErr) ≠ some WebserverErr.duplicateMethod :=
  C9_nil_error emptyServer emptyServer [] [] emptyServer emptyServer none none rfl rfl

/-- C10: a request whose method has no registered method router is served
through the `GET` router rather than rejected. -/
theorem C10_method_fallback (s : Server) (m p : String)
    (hm : lookupAssoc s.methodRouters m = none) :
    s.resolve m p = s.resolve "GET" p := by
  unfold Server.resolve Server.routerFor
  rw [hm]
  cases hg : lookupAssoc s.methodRouters "GET" <;> simp [hg]

/-- C10 witness: on a server with only a `GET` route, an unknown method
`BREW` resolves exactly as `GET` does. -/
theorem C10_method_fallback_witness :
    serverAfterSample.resolve "BREW" "/api/sample"
      = serverAfterSample.resolve "GET" "/api/sample" :=
  C10_method_fallback serverAfterSample "BREW" "/api/sample" rfl

/-- C7: every miss responds 404; with the seek flag clear the renderer is
never consulted (the response does not depend on its outcome); a failing
render clears the flag and that very miss is answered with the static default
body; and in any process history containing a failure, every miss from the
failure onward serves the static default 404 body with the flag permanently
clear. -/
theorem C7_missing_handler_latch (rs₁ rs₂ : List RenderResult) (seek : Bool) (r : RenderResult) :
    statusWritten (onMissingHandler seek r).2 = some 404 ∧
    onMissingHandler false r = onMissingHandler false RenderResult.failure ∧
    (onMissingHandler seek RenderResult.failure).1 = false ∧
    bodyOf (onMissingHandler seek RenderResult.failure).2 = defaultResponse404 ∧
    (runMisses true (rs₁ ++ RenderResult.failure :: rs₂)).1 = false ∧
    ∀ c ∈ ((runMisses true (rs₁ ++ RenderResult.failure :: rs₂)).2.drop rs₁.length),
      bodyOf c = defaultResponse404 ∧ statusWritten c = some 404 := by
  have hstatus : statusWritten (onMissingHandler seek r).2 = some 404 := by
    cases seek with
    | false => rfl
    | true => cases r with
      | success content => rfl
      | failure => rfl
  have hsplit := runMisses_append rs₁ (RenderResult.failure :: rs₂) true
  have hstep1 : (onMissingHandler (runMisses true rs₁).1 RenderResult.failure).1 = false :=
    (onMissingHandler_failure _).1
  have htail : runMisses (runMisses true rs₁).1 (RenderResult.failure :: rs₂)
      = ((runMisses false rs₂).1,
         (onMissingHandler (runMisses true rs₁).1 RenderResult.failure).2
           :: (runMisses false rs₂).2) := by
    rw [runMisses, hstep1]
  have hdrop : ((runMisses true (rs₁ ++ RenderResult.failure :: rs₂)).2.drop rs₁.length)
      = (onMissingHandler (runMisses true rs₁).1 RenderResult.failure).2
          :: (runMisses false rs₂).2 := by
    rw [hsplit]
    show (((runMisses true rs₁).2 ++ _).drop rs₁.length) = _
    rw [← runMisses_length rs₁ true, List.drop_left, htail]
  refine ⟨hstatus, rfl, (onMissingHandler_failure seek).1,
    (onMissingHandler_failure seek).2.1, ?_, ?_⟩
  · rw [hsplit]
    show (runMisses (runMisses true rs₁).1 (RenderResult.failure :: rs₂)).1 = false
    rw [htail]
    exact (runMisses_false rs₂).1
  · intro c hc
    rw [hdrop] at hc
    rcases List.mem_cons.mp hc with rfl | hc'
    · exact ⟨(onMissingHandler_failure _).2.1, (onMissingHandler_failure _).2.2⟩
    · exact (runMisses_false rs₂).2 c hc'

/-- C7 witness: in the history success–failure–success, the failing miss and
the one after it both serve the static default body with status 404. -/
theorem C7_missing_handler_latch_witness :
    bodyOf (onMissingHandler
        (runMisses true [RenderResult.success "tpl"]).1 RenderResult.failure).2
      = defaultResponse404 ∧
    statusWritten (onMissingHandler
        (runMisses true [RenderResult.success "tpl"]).1 RenderResult.failure).2
      = some 404 :=
  (C7_missing_handler_latch [RenderResult.success "tpl"] [RenderResult.success "t2"]
      true RenderResult.failure).2.2.2.2.2 _ (List.Mem.head _)

/-- C8: registering the demonstration `GET /api/sample` def and dispatching a
request to it yields status 200, body `Listing stuff`, headers
`Content-Type: text/html` and `Content-Length: 13`, with every header set
before the body is written. -/
theorem C8_end_to_end_sample :
    ∃ s', emptyServer.RegisterHandlerDef sampleHandlerDef = .ok s' ∧
      ∃ r, s'.resolve "GET" "/api/sample" = some r ∧
        statusWritten (r.dispatch ctxNew) = some 200 ∧
        bodyOf (r.dispatch ctxNew) = "Listing stuff" ∧
        headerOf (r.dispatch ctxNew) "Content-Type" = some "text/html" ∧
        headerOf (r.dispatch ctxNew) "Content-Length" = some "13" ∧
        noHeaderAfterWrite (r.dispatch ctxNew).events = true := by
  refine ⟨_, rfl, _, rfl, rfl, rfl, rfl, rfl, rfl⟩

/-- C2 (code bug): on input `GET /x` then `POST /x` with identical (empty)
request headers, exactly one OPTIONS route is synthesized for `/x`, but its
`Access-Control-Allow-Methods` header is `POST` — only the last def's verb —
not `GET,POST` as claimed, because every loop iteration overwrites all the
verb flags from the current def alone. -/
theorem C2_options_header_bug :
    ∃ s', emptyServer.RegisterHandlerDefsAndOptions [getXDef, postXDef] = .ok (s', none) ∧
      (s'.routerFor "OPTIONS").map Prod.fst = ["/x"] ∧
      ∃ r, s'.resolve "OPTIONS" "/x" = some r ∧
        headerOf (r.dispatch ctxNew) "Access-Control-Allow-Methods" = some "POST" ∧
        some "POST" ≠ some "GET,POST" := by
  refine ⟨_, rfl, by decide, _, rfl, by decide, by decide⟩

/-- C4 counterexample: `defB` and `defC` share path `/p` and disagree on the
value of their shared key `C` (`5` vs `6`), yet the batch `[defA, defB, defC]`
registers with no error, because each def is validated only against the first
def seen for its path (`defA`), never pairwise. -/
theorem C4_header_mismatch_counterexample :
    defB.Path = defC.Path ∧
    lookupAssoc defB.RequestHeaders "C" = some "5" ∧
    lookupAssoc defC.RequestHeaders "C" = some "6" ∧
    ∃ s', emptyServer.RegisterHandlerDefsAndOptions [defA, defB, defC] = .ok (s', none) := by
  refine ⟨rfl, rfl, rfl, _, rfl⟩

/-- C4 (amended): `RegisterHandlerDefsAndOptions` returns a header-mismatch
error whenever some def's request headers conflict with those of the first
def sharing its path — a differing key count, or a key of the first def's
headers present with a differing value — and on such an error the server
state is returned untouched: no registration at all happens in that call. -/
theorem C4_header_mismatch_amended (s : Server) (hs : List HandlerDef) (hd : HandlerDef)
    (dflt : List (String × String)) (h1 : hd ∈ hs)
    (h2 : firstHeaders hs hd.Path = some dflt)
    (h3 : headerConflict dflt hd.RequestHeaders = true) :
    ∃ e, s.RegisterHandlerDefsAndOptions hs = .ok (s, some e) ∧
      (e = WebserverErr.requestHeaderCountWrong ∨ e = WebserverErr.requestHeaderMismatch) := by
  cases hcoll : collectOptions [] [] hs with
  | ok om =>
      have hno := collectOptions_ok_no_conflict hs [] [] om hcoll (fun _ => rfl) hd h1 dflt h2
      rw [hno] at h3
      exact Bool.noConfusion h3
  | error e =>
      exact ⟨e, regAndOptions_error_eq s hs e hcoll,
        collectOptions_error_kind hs [] [] e hcoll⟩

/-- C4 witness: `defB2` disagrees with the first def `defA` on key `A`, so
the batch `[defA, defB2]` is rejected with a header-mismatch error and the
server is unchanged. -/
theorem C4_header_mismatch_witness :
    ∃ e, emptyServer.RegisterHandlerDefsAndOptions [defA, defB2] = .ok (emptyServer, some e) ∧
      (e = WebserverErr.requestHeaderCountWrong ∨ e = WebserverErr.requestHeaderMismatch) :=
  C4_header_mismatch_amended emptyServer [defA, defB2] defB2 [("A", "1"), ("B", "2")]
    (List.Mem.tail _ (List.Mem.head _)) rfl rfl

end Webserver
